import Mathlib

/-!
Shallow embedding of the Feetech servo calibration tool
(`components/bridges/cu_feetech`): the minimal wire protocol of
`src/bin/calibrate.rs` (checksum, `send_packet`, `read_response`,
`read_position`), the CLI argument handling of its `main`, the extrema
sampling loop, and the `Units::from_raw` conversion of
`src/calibration.rs`.

Bytes are modelled as `Nat` values (callers of byte type `u8` are below
256; where the Rust code truncates with `as u8` the model takes `% 256`
explicitly).  A serial port is modelled by the list of bytes it will
deliver: `read_exact(n)` succeeds exactly when at least `n` bytes remain.
Rust `f32` arithmetic is modelled over `ℚ`; panics are explicit outcomes.
-/

namespace Feetech

/-- `checksum` from `calibrate.rs`: 8-bit wrapping sum of `data`, then
bitwise NOT (`!s` on a `u8` is `255 - s`). -/
def checksum (data : List Nat) : Nat :=
  255 - data.foldl (fun s b => (s + b) % 256) 0

/-- The byte frame built by `send_packet` in `calibrate.rs`:
header `0xFF 0xFF`, then `id`, then `(params.len() + 2) as u8`, then the
instruction, the parameters, and the checksum over `pkt[2..]`. -/
def send_packet_bytes (id instr : Nat) (params : List Nat) : List Nat :=
  let length := (params.length + 2) % 256
  [255, 255, id, length, instr] ++ params ++
    [checksum ([id, length, instr] ++ params)]

/-- Outcome of `read_response` in `calibrate.rs`.  `shortRead` is the
`io::Error` that `read_exact` returns on a truncated stream, `badHeader`
the explicit `io::Error::other("bad header")`, and `panicked` the Rust
panic raised by the slice expression `rest[1..rest.len() - 1]` when
`rest.len() < 2`. -/
inductive DecodeResult where
  | ok (payload : List Nat)
  | badHeader
  | shortRead
  | panicked
deriving DecidableEq, Repr

/-- `read_response` from `calibrate.rs`, on the incoming byte stream:
read exactly 4 header bytes, reject if the first two are not `0xFF`,
read `hdr[3]` further bytes into `rest`, and return
`rest[1..rest.len()-1]` (which panics when `rest.len() < 2`). -/
def read_response (input : List Nat) : DecodeResult :=
  if input.length < 4 then .shortRead
  else
    let hdr := input.take 4
    if hdr.get! 0 ≠ 255 ∨ hdr.get! 1 ≠ 255 then .badHeader
    else
      let len := hdr.get! 3
      if (input.drop 4).length < len then .shortRead
      else if len < 2 then .panicked
      else
        let rest := (input.drop 4).take len
        .ok ((rest.drop 1).take (len - 2))

/-- `INSTR_READ` constant from `calibrate.rs`. -/
def INSTR_READ : Nat := 2

/-- `PRESENT_POSITION` register constant from `calibrate.rs`. -/
def PRESENT_POSITION : Nat := 56

/-- Outcome of `read_position` in `calibrate.rs`. `shortResponse` is the
`io::Error::other("short response")` raised when the decoded payload has
fewer than 2 bytes; `ioError` covers the propagated transport and framing
errors. -/
inductive PosResult where
  | ok (pos : Nat)
  | shortResponse
  | ioError
  | panicked
deriving DecidableEq, Repr

/-- The request frame written by `read_position`:
`send_packet(port, id, INSTR_READ, &[PRESENT_POSITION, 2])`. -/
def read_position_request (id : Nat) : List Nat :=
  send_packet_bytes id INSTR_READ [PRESENT_POSITION, 2]

/-- The result of `read_position` in `calibrate.rs` as a function of the
reply byte stream: decode, require at least a 2-byte payload, and return
`u16::from_le_bytes([data[0], data[1]])`. -/
def read_position (input : List Nat) : PosResult :=
  match read_response input with
  | .ok data =>
      if data.length < 2 then .shortResponse
      else .ok (data.get! 0 + 256 * data.get! 1)
  | .badHeader => .ioError
  | .shortRead => .ioError
  | .panicked => .panicked

end Feetech

namespace Feetech

/-- One sampling step of the calibration loop in `main` of
`calibrate.rs` for a single servo: on `Ok(pos)` update
`mins[i] = mins[i].min(pos)` and `maxs[i] = maxs[i].max(pos)`; on `Err`
leave the state unchanged. -/
def observe (st : Nat × Nat) (r : Option Nat) : Nat × Nat :=
  match r with
  | some pos => (Nat.min st.1 pos, Nat.max st.2 pos)
  | none => st

/-- The extrema a single servo accumulates over a run of the sampling
loop, starting from the sentinels `u16::MAX = 65535` and `u16::MIN = 0`
set up in `main`. -/
def run_servo (reads : List (Option Nat)) : Nat × Nat :=
  reads.foldl observe (65535, 0)

/-- The Rust parse `str::parse::<u8>()`: an optional leading `+`, then one or
more ASCII digits, rejected on overflow past `u8::MAX = 255`.
(Implemented over `List Char` so that it evaluates by kernel
reduction.) -/
def parse_u8 (s : String) : Option Nat :=
  let cs := s.data
  let t := if cs.head? = some '+' then cs.drop 1 else cs
  if t ≠ [] ∧ t.all Char.isDigit then
    let n := t.foldl (fun n c => n * 10 + (c.toNat - 48)) 0
    if n ≤ 255 then some n else none
  else none

/-- Outcome of the argument-handling prefix of `main` in `calibrate.rs`.
`usage` is the `args.len() < 3` branch (`std::process::exit(1)`),
`noIds` the `ids.is_empty()` branch (also `exit(1)`), and `panicIds`
the `.expect("servo IDs must be numbers")` panic on an id that fails to
parse as a `u8`. -/
inductive CliResult where
  | usage
  | noIds
  | panicIds
  | parsed (dev : String) (ids : List Nat) (out : String)
deriving DecidableEq, Repr

/-- The argument handling of `main` in `calibrate.rs`, on the full
`std::env::args()` vector (`args[0]` is the program name).  The last
argument is taken as the output path exactly when `args.len() > 3` and
it ends in `".json"`; otherwise the output defaults to
`"calibration.json"`. -/
def parse_cli (args : List String) : CliResult :=
  if args.length < 3 then .usage
  else
    let dev := args.get! 1
    let takeOut : Bool :=
      decide (3 < args.length) &&
        (String.data ".json").isSuffixOf (args.getLast!).data
    let idArgs := if takeOut then (args.drop 2).dropLast else args.drop 2
    let out := if takeOut then args.getLast! else "calibration.json"
    match idArgs.mapM parse_u8 with
    | none => .panicIds
    | some ids => if ids.isEmpty then .noIds else .parsed dev ids out

/-- Process exit code implied by each `CliResult`: the two explicit
`std::process::exit(1)` branches give `1`; a Rust panic (from
`.expect`) terminates the process with the standard panic exit status
`101`; a successful parse continues execution (`none`). -/
def cliExitCode : CliResult → Option Nat
  | .usage => some 1
  | .noIds => some 1
  | .panicIds => some 101
  | .parsed _ _ _ => none

/-- `Units` enum from `calibration.rs`. -/
inductive Units where
  | raw
  | deg
  | rad
  | normalize
deriving DecidableEq, Repr

/-- The exact value of the `f32` constant `core::f32::consts::TAU`. -/
def TAU_F32 : ℚ := 13176795 / 2097152

/-- Rust `f32::clamp`: `min(max(x, lo), hi)` (on non-NaN values). -/
def fclamp (x lo hi : ℚ) : ℚ := min (max x lo) hi

/-- `Units::from_raw` from `calibration.rs`, with the `f32` arithmetic
modelled exactly over `ℚ`.  The `uom` round trip
`Angle::new::<degree>(deg).get::<degree>()` (and its radian analogue) is
the identity in exact arithmetic.  Only the `normalize` arm is the
subject of a claim; the `deg`/`rad` arms are carried for completeness. -/
def Units.from_raw : Units → Nat → ℚ → ℚ → ℚ
  | .raw, rawv, _, _ => rawv
  | .deg, rawv, center, param => (rawv - center) * 360 / param
  | .rad, rawv, center, param => (rawv - center) * TAU_F32 / param
  | .normalize, rawv, center, param =>
      if param ≤ 0 then 0
      else fclamp ((rawv - center) / param) (-1) 1

end Feetech

namespace Feetech

/-- The 8-bit wrapping sum of a byte list equals its plain sum modulo 256. -/
theorem foldl_wrap_add (data : List Nat) :
    ∀ s : Nat, data.foldl (fun a b => (a + b) % 256) (s % 256) = (s + data.sum) % 256 := by
  induction data with
  | nil => intro s; simp
  | cons b bs ih =>
      intro s
      simp only [List.foldl_cons, List.sum_cons]
      rw [Nat.mod_add_mod, ih (s + b), Nat.add_assoc]

/-- The last element of a list with an explicit final element. -/
theorem getLast!_append_one (l : List Nat) (a : Nat) : (l ++ [a]).getLast! = a := by
  induction l with
  | nil => rfl
  | cons b bs ih => simp [List.getLast!, List.getLast]

/-- Claim C1: the packet checksum is the bitwise NOT (`255 - ·`) of the
8-bit wrapping sum, and the checksum byte of an outgoing packet is computed
over every byte from the id byte through the last parameter byte
inclusive, the two `0xFF` header bytes excluded. -/
theorem checksum_complement_and_coverage (data : List Nat) (id instr : Nat)
    (params : List Nat) :
    checksum data = 255 - data.sum % 256 ∧
    (send_packet_bytes id instr params).getLast! =
      checksum (((send_packet_bytes id instr params).drop 2).dropLast) := by
  constructor
  · have h : List.foldl (fun s b => (s + b) % 256) 0 data = data.sum % 256 := by
      simpa using foldl_wrap_add data 0
    unfold checksum
    rw [h]
  · have hassoc :
        send_packet_bytes id instr params =
          ([255, 255, id, (params.length + 2) % 256, instr] ++ params) ++
            [checksum ([id, (params.length + 2) % 256, instr] ++ params)] := by
      simp [send_packet_bytes]
    rw [hassoc, getLast!_append_one]
    have hdrop :
        ((([255, 255, id, (params.length + 2) % 256, instr] ++ params) ++
            [checksum ([id, (params.length + 2) % 256, instr] ++ params)]).drop 2)
          = ([id, (params.length + 2) % 256, instr] ++ params) ++
              [checksum ([id, (params.length + 2) % 256, instr] ++ params)] := by
      simp
    rw [hdrop, List.dropLast_concat]

/-- Claim C10: the length byte is `(params.len() + 2)` truncated to 8
bits: exact for `params.len() ≤ 253`, wrapped modulo 256 beyond that,
and the frame is still produced in full (no error path exists). -/
theorem length_byte_wrapping (id instr : Nat) (params : List Nat) :
    (send_packet_bytes id instr params).get! 3 = (params.length + 2) % 256 ∧
    (send_packet_bytes id instr params).length = 6 + params.length ∧
    (params.length ≤ 253 →
      (send_packet_bytes id instr params).get! 3 = params.length + 2) ∧
    (253 < params.length →
      (send_packet_bytes id instr params).get! 3 ≠ params.length + 2) := by
  have hget : (send_packet_bytes id instr params).get! 3 = (params.length + 2) % 256 := rfl
  refine ⟨hget, ?_, ?_, ?_⟩
  · simp [send_packet_bytes]; omega
  · intro h
    rw [hget, Nat.mod_eq_of_lt (by omega)]
  · intro h
    rw [hget]
    have : (params.length + 2) % 256 < 256 := Nat.mod_lt _ (by norm_num)
    omega

end Feetech

namespace Feetech

/-- Evaluation of `read_response` on a stream with at least the four
header bytes present. -/
theorem read_response_cons (a b c d : Nat) (rest : List Nat) :
    read_response (a :: b :: c :: d :: rest) =
      if a ≠ 255 ∨ b ≠ 255 then .badHeader
      else if rest.length < d then .shortRead
      else if d < 2 then .panicked
      else .ok (((rest.take d).drop 1).take (d - 2)) := by
  have h4 : ¬ ((a :: b :: c :: d :: rest).length < 4) := by
    simp only [List.length_cons]
    omega
  unfold read_response
  rw [if_neg h4]
  rfl

/-- Claim C2: for `params.len() ≤ 253` the encoder produces the frame
`[0xFF, 0xFF, id, params.len()+2, instr, params…, checksum]`, and
decoding that frame as a reply strips the leading instruction byte and
the trailing checksum byte, yielding back exactly `params`. -/
theorem encode_decode_roundtrip (id instr : Nat) (params : List Nat)
    (h : params.length ≤ 253) :
    send_packet_bytes id instr params =
      [255, 255, id, params.length + 2, instr] ++ params ++
        [checksum ([id, params.length + 2, instr] ++ params)] ∧
    read_response (send_packet_bytes id instr params) = .ok params := by
  have hmod : (params.length + 2) % 256 = params.length + 2 :=
    Nat.mod_eq_of_lt (by omega)
  have henc : send_packet_bytes id instr params =
      [255, 255, id, params.length + 2, instr] ++ params ++
        [checksum ([id, params.length + 2, instr] ++ params)] := by
    simp [send_packet_bytes, hmod]
  refine ⟨henc, ?_⟩
  have hcons : send_packet_bytes id instr params =
      255 :: 255 :: id :: (params.length + 2) :: instr ::
        (params ++ [checksum ([id, params.length + 2, instr] ++ params)]) := by
    rw [henc]; rfl
  rw [hcons, read_response_cons]
  have hrest :
      (instr :: (params ++ [checksum ([id, params.length + 2, instr] ++ params)])).length
        = params.length + 2 := by
    simp
  rw [if_neg (by simp), if_neg (by rw [hrest]; omega), if_neg (by omega)]
  have htake : List.take (params.length + 2)
      (instr :: (params ++ [checksum ([id, params.length + 2, instr] ++ params)]))
      = instr :: (params ++ [checksum ([id, params.length + 2, instr] ++ params)]) := by
    apply List.take_of_length_le
    simp
  rw [htake]
  simp [List.take_left]

end Feetech

namespace Feetech

/-- Claim C6: an input whose first two bytes are not both `0xFF` makes
`read_response` fail with a framing error (the explicit bad-header error,
or the short-read error when even the four header bytes are missing) —
never a panic, never a payload; and an input whose header is intact but
which is truncated before the declared number of bytes
fails with the short-read protocol error. -/
theorem decode_rejects_bad_header_and_truncation (input : List Nat) :
    (2 ≤ input.length → (input.get! 0 ≠ 255 ∨ input.get! 1 ≠ 255) →
      read_response input = .badHeader ∨ read_response input = .shortRead) ∧
    (4 ≤ input.length → input.get! 0 = 255 → input.get! 1 = 255 →
      input.length < 4 + input.get! 3 →
      read_response input = .shortRead) := by
  rcases input with _ | ⟨a, _ | ⟨b, _ | ⟨c, _ | ⟨d, rest⟩⟩⟩⟩
  · exact ⟨fun h => by simp at h, fun h => by simp at h⟩
  · exact ⟨fun h => by simp at h, fun h => by simp at h⟩
  · exact ⟨fun _ _ => Or.inr rfl, fun h => by simp at h⟩
  · exact ⟨fun _ _ => Or.inr rfl, fun h => by simp at h⟩
  · constructor
    · intro _ hbad
      simp only [List.get!_cons_zero, List.get!_cons_succ] at hbad
      rw [read_response_cons, if_pos hbad]
      exact Or.inl rfl
    · intro _ h0 h1 htrunc
      simp only [List.get!_cons_zero, List.get!_cons_succ] at h0 h1 htrunc
      simp only [List.length_cons] at htrunc
      rw [read_response_cons, if_neg (by simp [h0, h1]), if_pos (by omega)]

/-- Witness for C6 at the concrete inputs `[0x00,0xFF,3,4]` (bad
header) and `[0xFF,0xFF,1,5]` (header intact, declared length 5 but no
further bytes). -/
theorem decode_rejects_witness :
    (read_response [0, 255, 3, 4] = .badHeader ∨
      read_response [0, 255, 3, 4] = .shortRead) ∧
    read_response [255, 255, 1, 5] = .shortRead :=
  ⟨(decode_rejects_bad_header_and_truncation [0, 255, 3, 4]).1
      (by decide) (by decide),
   (decode_rejects_bad_header_and_truncation [255, 255, 1, 5]).2
      (by decide) (by decide) (by decide) (by decide)⟩

/-- Claim C9 (amended): `read_response` panics exactly when the header
check passes, the declared length byte is 0 or 1, and the stream
actually supplies the declared number of bytes; a stream that declares
length 1 but is truncated right after the header still fails with the
short-read error instead of panicking. -/
theorem decode_panic_characterization (input : List Nat) :
    read_response input = .panicked ↔
      (4 ≤ input.length ∧ input.get! 0 = 255 ∧ input.get! 1 = 255 ∧
        input.get! 3 < 2 ∧ 4 + input.get! 3 ≤ input.length) := by
  rcases input with _ | ⟨a, _ | ⟨b, _ | ⟨c, _ | ⟨d, rest⟩⟩⟩⟩
  · simp [read_response]
  · simp [read_response]
  · simp [read_response]
  · simp [read_response]
  · rw [read_response_cons]
    simp only [List.get!_cons_zero, List.get!_cons_succ, List.length_cons]
    split_ifs with h1 h2 h3
    · apply iff_of_false
      · simp
      · rintro ⟨_, h0, h1', _, _⟩
        rcases h1 with h | h <;> exact h (by assumption)
    · apply iff_of_false
      · simp
      · rintro ⟨_, _, _, _, hle⟩
        omega
    · push_neg at h1 h2
      exact iff_of_true rfl ⟨by omega, h1.1, h1.2, h3, by omega⟩
    · apply iff_of_false
      · simp
      · rintro ⟨_, _, _, hd, _⟩
        exact h3 hd

/-- Witness for the amended characterization of C9: a good header with
declared length 0 panics. -/
theorem decode_panic_witness : read_response [255, 255, 9, 0] = .panicked :=
  (decode_panic_characterization [255, 255, 9, 0]).mpr (by decide)

/-- Counterexample for C9 as stated: the stream `[0xFF,0xFF,7,1]`
passes the header check and declares length 1, yet `read_response`
returns the short-read protocol error rather than panicking. -/
theorem decode_len_one_no_panic :
    read_response [255, 255, 7, 1] = .shortRead ∧
    read_response [255, 255, 7, 1] ≠ .panicked := by decide

end Feetech

namespace Feetech

/-- The sampling fold splits into a min-fold and a max-fold over the
successful reads only. -/
theorem foldl_observe_split (rs : List (Option Nat)) : ∀ mn mx : Nat,
    rs.foldl observe (mn, mx) =
      ((rs.filterMap id).foldl Nat.min mn, (rs.filterMap id).foldl Nat.max mx) := by
  induction rs with
  | nil => intro mn mx; rfl
  | cons r rs ih =>
      intro mn mx
      cases r with
      | none => simpa [observe] using ih mn mx
      | some p => simpa [observe] using ih (Nat.min mn p) (Nat.max mx p)

/-- Claim C5: the final extrema of a servo are the running minimum and
maximum over exactly the successful reads (each success updating
`min = min(min, raw)`, `max = max(max, raw)`), a failed read leaves the
state untouched and never aborts the run, a servo with no successful
read keeps the sentinels `(u16::MAX, u16::MIN) = (65535, 0)`, and the
sequence `Ok(100), Err, Ok(300), Err` yields `min = 100, max = 300`. -/
theorem sampling_extrema (rs : List (Option Nat)) :
    run_servo rs =
      ((rs.filterMap id).foldl Nat.min 65535, (rs.filterMap id).foldl Nat.max 0) ∧
    run_servo [some 100, none, some 300, none] = (100, 300) ∧
    (rs.filterMap id = [] → run_servo rs = (65535, 0)) := by
  refine ⟨foldl_observe_split rs 65535 0, by decide, ?_⟩
  intro hnone
  unfold run_servo
  rw [foldl_observe_split rs 65535 0, hnone]
  rfl

/-- Witness for C5 at a run with no successful read: the sentinels
survive. -/
theorem sampling_extrema_witness : run_servo [none, none] = (65535, 0) :=
  (sampling_extrema [none, none]).2.2 (by decide)

/-- Claim C7: `read_position` writes the read-instruction frame for
register 56 with read length 2 (whose checksum over
`[id, 4, 2, 56, 2]` is `255 - (id + 64) % 256`), and on a decoded reply
payload returns its first two bytes as a little-endian `u16`, or the
short-response error when the payload has fewer than 2 bytes. -/
theorem read_position_spec (id : Nat) (input p : List Nat) :
    read_position_request id =
      [255, 255, id, 4, 2, 56, 2, 255 - (id + 64) % 256] ∧
    (read_response input = .ok p → 2 ≤ p.length →
      read_position input = .ok (p.get! 0 + 256 * p.get! 1)) ∧
    (read_response input = .ok p → p.length < 2 →
      read_position input = .shortResponse) := by
  refine ⟨?_, ?_, ?_⟩
  · have hck : checksum [id, 4, 2, 56, 2] = 255 - (id + 64) % 256 := by
      have h : List.foldl (fun s b => (s + b) % 256) 0 [id, 4, 2, 56, 2]
          = (id + 64) % 256 := by
        simp [Nat.add_assoc]
      unfold checksum
      rw [h]
    simp [read_position_request, send_packet_bytes, INSTR_READ, PRESENT_POSITION, hck]
  · intro hok hlen
    unfold read_position
    rw [hok]
    exact if_neg (by omega)
  · intro hok hlen
    unfold read_position
    rw [hok]
    exact if_pos hlen

/-- Witness for C7: a valid reply frame carrying payload `[10, 1]`
decodes to position `10 + 256 = 266`. -/
theorem read_position_witness :
    read_position (send_packet_bytes 1 2 [10, 1]) = .ok 266 := by
  have h := (read_position_spec 1 (send_packet_bytes 1 2 [10, 1]) [10, 1]).2.1
      (by decide) (by decide)
  simpa using h

/-- Claim C4: for the `Normalize` unit, `from_raw` returns
`(raw - center) / param` clamped to `[-1, 1]` whenever `param > 0`, and
exactly `0` whenever `param ≤ 0`, for every raw input — the division is
never taken with `param ≤ 0` and the result always lies in `[-1, 1]`
(hence is finite). -/
theorem normalize_from_raw_safe (rawv : Nat) (center param : ℚ) :
    (param ≤ 0 → Units.from_raw .normalize rawv center param = 0) ∧
    (0 < param →
      Units.from_raw .normalize rawv center param =
        min (max (((rawv : ℚ) - center) / param) (-1)) 1 ∧
      -1 ≤ Units.from_raw .normalize rawv center param ∧
      Units.from_raw .normalize rawv center param ≤ 1) := by
  constructor
  · intro h
    simp [Units.from_raw, h]
  · intro h
    have hne : ¬ param ≤ 0 := not_le.mpr h
    have heq : Units.from_raw .normalize rawv center param =
        min (max (((rawv : ℚ) - center) / param) (-1)) 1 := by
      simp [Units.from_raw, fclamp, hne]
    refine ⟨heq, ?_, ?_⟩
    · rw [heq]
      exact le_min (le_max_right _ _) (by norm_num)
    · rw [heq]
      exact min_le_right _ _

/-- Witness for C4 at `raw = 100, center = 50`: a degenerate
`param = 0` yields `0`, and `param = 2` yields the clamped value `1`. -/
theorem normalize_witness :
    Units.from_raw Units.normalize 100 50 0 = 0 ∧
    Units.from_raw Units.normalize 100 50 2 = 1 := by
  constructor
  · exact (normalize_from_raw_safe 100 50 0).1 (by norm_num)
  · have h := ((normalize_from_raw_safe 100 50 2).2 (by norm_num)).1
    rw [h]
    norm_num

/-- Claim C8 (amended): the CLI parses the two vectors of the claim to
ids `[1, 2]` with output paths `"out.json"` and `"calibration.json"`
respectively; giving no servo id exits with code 1; but a servo id that
fails to parse as a `u8` aborts via the `.expect` panic, whose process
exit status is the Rust panic code 101, not 1. -/
theorem cli_parse_and_exit (dev : String) :
    parse_cli ["prog", "/dev/ttyX", "1", "2", "out.json"] =
      .parsed "/dev/ttyX" [1, 2] "out.json" ∧
    parse_cli ["prog", "/dev/ttyX", "1", "2"] =
      .parsed "/dev/ttyX" [1, 2] "calibration.json" ∧
    parse_cli ["prog", dev] = .usage ∧
    parse_cli ["prog", dev, "abc"] = .panicIds ∧
    cliExitCode .usage = some 1 ∧
    cliExitCode .noIds = some 1 ∧
    cliExitCode .panicIds = some 101 :=
  ⟨by decide, by decide, rfl, rfl, rfl, rfl, rfl⟩

/-- Counterexample for C8 as stated: the id `"abc"` is a usage error,
but the process aborts through the `.expect` panic (exit status 101),
not through `std::process::exit(1)`. -/
theorem cli_parse_failure_exit_code :
    parse_cli ["prog", "/dev/ttyX", "abc"] = .panicIds ∧
    cliExitCode (parse_cli ["prog", "/dev/ttyX", "abc"]) ≠ some 1 := by
  decide

end Feetech

namespace Feetech

/-- Witness for C2 at the frame that `read_position` itself sends:
the round trip returns the parameters `[56, 2]`. -/
theorem encode_decode_witness :
    read_response (send_packet_bytes 1 2 [56, 2]) = .ok [56, 2] :=
  (encode_decode_roundtrip 1 2 [56, 2] (by decide)).2

/-- Witness for C10 at a parameter list of length 254: the length byte
wraps to `0` and no longer matches `params.len() + 2`. -/
theorem length_byte_witness :
    (send_packet_bytes 1 2 (List.replicate 254 0)).get! 3 ≠
      (List.replicate 254 0).length + 2 :=
  (length_byte_wrapping 1 2 (List.replicate 254 0)).2.2.2
    (by rw [List.length_replicate]; omega)

end Feetech
